import Mathlib

/-
  Verification development for the polylog real-time conversation engine.

  The server-side core (Message Pipeline, Assistant Trigger Engine,
  reconnect backoff of the Connection Manager) is not present in the
  repository sources; those components are modelled from the spec
  (spec.md sections 4.1, 4.3, 4.4, 7, 8).  The frontend components
  (WebSocketContext.tsx, AuthContext.tsx, ChatPage.tsx) are embedded
  directly from their TypeScript sources.
-/

namespace Polylog

/-! ## Message Pipeline (spec section 4.3) -/

/-- Modelled from the spec: the author of a message is a user id or the
assistant marker or system (spec section 3, Message.kind). -/
inductive Author where
  | human (userId : String)
  | assistant
  | system
deriving DecidableEq, Repr

/-- Modelled from the spec: rejection reasons of the validation step
(spec sections 4.3 step 1 and 7: ValidationError, RateLimited). -/
inductive RejectedReason where
  | validationError
  | rateLimited
deriving DecidableEq, Repr

/-- Modelled from the spec: a persisted message (spec section 3): the
server-assigned sequence number, author, content and timestamp. -/
structure Message where
  seq : Nat
  author : Author
  content : String
  timestamp : Nat
deriving DecidableEq, Repr

/-- Modelled from the spec: the result of `ingest`
(`Message | DuplicateIgnored | RejectedReason`, spec section 4.3), plus
the explicit persistence-failure response of spec sections 4.3 and 7. -/
inductive IngestResult where
  | ok (m : Message)
  | duplicateIgnored
  | rejected (r : RejectedReason)
  | persistenceFailure
deriving DecidableEq, Repr

/-- Modelled from the spec: the configuration surface relevant to the
pipeline (spec section 6): `dedupeWindowSeconds` and
`rateLimitPerUserPerMinute`, plus the content length bound. -/
structure Config where
  maxContentLength : Nat
  dedupeWindow : Nat
  rateLimitPerMinute : Nat
deriving DecidableEq, Repr

/-- Modelled from the spec: the per-conversation pipeline state: the
monotonic sequence counter and ordered message log (spec section 3,
Conversation), the dedupe record of idempotency tokens with the time
they were seen (spec section 4.3 step 2), the record of messages handed
to Broadcast Fanout (step 5), the list of sequence numbers assigned so
far (ghost record of step 3), and the accepted human messages used for
rate limiting (step 1). -/
structure ConvState where
  seqCounter : Nat
  log : List Message
  dedupeSeen : List (String × Nat)
  broadcasts : List Message
  assigned : List Nat
  rateEvents : List (String × Nat)
deriving DecidableEq, Repr

/-- Modelled from the spec: the empty conversation state. -/
def initialConvState : ConvState :=
  ⟨0, [], [], [], [], []⟩

/-- Modelled from the spec: one call to `ingest`: author, content,
optional idempotency token, the call time, and whether the store
collaborator succeeds for this call (spec section 4.3 step 4). -/
structure IngestInput where
  author : Author
  content : String
  token : Option String
  now : Nat
  storeOk : Bool
deriving DecidableEq, Repr

/-- Embedding of the JavaScript `String.prototype.trim`: strip leading
and trailing whitespace. -/
def jsTrim (s : String) : String :=
  ⟨(((s.data.dropWhile Char.isWhitespace).reverse).dropWhile Char.isWhitespace).reverse⟩

/-- Modelled from the spec: accepted messages of a user inside the
rolling minute ending at `now` (spec section 4.3 step 1,
`rateLimitPerUserPerMinute`). -/
def recentCount (uid : String) (now : Nat) (evs : List (String × Nat)) : Nat :=
  (evs.filter (fun p => p.1 == uid && decide (now - p.2 < 60))).length

/-- Modelled from the spec: validation, spec section 4.3 step 1:
non-empty after trim, length bound, per-user rate limit. -/
def validateContent (cfg : Config) (inp : IngestInput) (st : ConvState) :
    Option RejectedReason :=
  if jsTrim inp.content = "" then some .validationError
  else if cfg.maxContentLength < inp.content.length then some .validationError
  else
    match inp.author with
    | .human uid =>
        if cfg.rateLimitPerMinute ≤ recentCount uid inp.now st.rateEvents then
          some .rateLimited
        else none
    | _ => none

/-- Modelled from the spec: dedupe check, spec section 4.3 step 2: an
idempotency token was seen for this conversation within the trailing
window. -/
def isDuplicate (cfg : Config) (inp : IngestInput) (st : ConvState) : Bool :=
  match inp.token with
  | some t =>
      st.dedupeSeen.any (fun p => p.1 == t && decide (inp.now - p.2 ≤ cfg.dedupeWindow))
  | none => false

/-- Modelled from the spec: record an idempotency token as seen at the
time the message is sequenced (at-most-once-per-token, spec sections
4.3 and 7). -/
def recordToken (token : Option String) (now : Nat) (seen : List (String × Nat)) :
    List (String × Nat) :=
  match token with
  | some t => seen ++ [(t, now)]
  | none => seen

/-- Modelled from the spec: record a sequenced human message for the
rolling rate limit (spec section 4.3 step 1). -/
def recordRate (author : Author) (now : Nat) (evs : List (String × Nat)) :
    List (String × Nat) :=
  match author with
  | .human uid => evs ++ [(uid, now)]
  | _ => evs

/-- Modelled from the spec: `ingest` (spec section 4.3): validate, then
dedupe, then assign the next sequence number, then persist before
acknowledging; on store success the message is appended to the log and
handed to Broadcast Fanout; on store failure the call answers with an
explicit persistence failure and the assigned sequence number is not
reused (spec sections 4.3 and 7). -/
def ingest (cfg : Config) (inp : IngestInput) (st : ConvState) :
    IngestResult × ConvState :=
  match validateContent cfg inp st with
  | some r => (.rejected r, st)
  | none =>
    if isDuplicate cfg inp st then
      (.duplicateIgnored, st)
    else
      let seq := st.seqCounter + 1
      let st1 : ConvState :=
        { st with
          seqCounter := seq
          assigned := st.assigned ++ [seq]
          dedupeSeen := recordToken inp.token inp.now st.dedupeSeen
          rateEvents := recordRate inp.author inp.now st.rateEvents }
      if inp.storeOk then
        let m : Message := ⟨seq, inp.author, inp.content, inp.now⟩
        (.ok m, { st1 with log := st1.log ++ [m], broadcasts := st1.broadcasts ++ [m] })
      else
        (.persistenceFailure, st1)

/-- Modelled from the spec: a sequence of `ingest` calls on one
conversation (the per-conversation serialization point, spec section
4.3 step 3, makes the calls a linear sequence). -/
def runIngest (cfg : Config) (inputs : List IngestInput) (st : ConvState) : ConvState :=
  inputs.foldl (fun s i => (ingest cfg i s).2) st

/-! ## Assistant Trigger Engine (spec section 4.4) -/

/-- Modelled from the spec: the per-conversation state machine phases
`Idle`, `LullArmed`, `Invoking` (spec section 4.4). -/
inductive TriggerPhase where
  | idle
  | lullArmed
  | invoking
deriving DecidableEq, Repr

/-- Modelled from the spec: the events the Assistant Trigger Engine
reacts to: a human message on the stream, a mention trigger, the lull
timer firing, and the in-flight generation completing or failing
(spec section 4.4). -/
inductive EngineEvent where
  | humanMessage
  | mention
  | lullFire
  | generationDone
  | generationFailed
deriving DecidableEq, Repr

/-- Modelled from the spec: the engine state: the phase, the number of
assistant generations currently in flight, and a count of triggers that
fired while a generation was in flight and were dropped (spec section
4.4 guarantee: dropped, not queued — the state holds no queue). -/
structure TriggerState where
  phase : TriggerPhase
  inflight : Nat
  dropped : Nat
deriving DecidableEq, Repr

/-- Modelled from the spec: initial engine state for a conversation. -/
def initialTriggerState : TriggerState :=
  ⟨.idle, 0, 0⟩

/-- Whether an event is a trigger (a mention or a lull-timer fire,
spec section 4.4 trigger conditions). -/
def isTrigger (e : EngineEvent) : Bool :=
  match e with
  | .mention | .lullFire => true
  | _ => false

/-- Modelled from the spec: one engine transition (spec section 4.4):
a human message (re)arms the lull timer unless a generation is in
flight (`Invoking` unaffected by new human messages); a mention fires
in any non-`Invoking` phase; the lull timer fires only when armed; a
trigger that fires while `Invoking` is dropped, not queued; generation
completion or failure returns to `Idle`. -/
def engineStep (st : TriggerState) (e : EngineEvent) : TriggerState :=
  match e with
  | .humanMessage =>
      match st.phase with
      | .invoking => st
      | _ => { st with phase := .lullArmed }
  | .mention =>
      match st.phase with
      | .invoking => { st with dropped := st.dropped + 1 }
      | _ => { st with phase := .invoking, inflight := st.inflight + 1 }
  | .lullFire =>
      match st.phase with
      | .invoking => { st with dropped := st.dropped + 1 }
      | .lullArmed => { st with phase := .invoking, inflight := st.inflight + 1 }
      | .idle => st
  | .generationDone | .generationFailed =>
      match st.phase with
      | .invoking => { st with phase := .idle, inflight := st.inflight - 1 }
      | _ => st

/-- Modelled from the spec: the engine state after a sequence of events
(per-conversation events are serialized, spec section 5). -/
def runEngine (events : List EngineEvent) (st : TriggerState) : TriggerState :=
  events.foldl engineStep st

/-! ## Connection Manager reconnect backoff (spec section 4.1) -/

/-- Modelled from the spec: the reconnect backoff base interval in
milliseconds (spec section 4.1: start 1s). -/
def baseDelay : Nat := 1000

/-- Modelled from the spec: the backoff state of the Connection
Manager: the delay the next reconnect attempt would wait. -/
structure BackoffState where
  delay : Nat
deriving DecidableEq, Repr

/-- Modelled from the spec: initial backoff state. -/
def initialBackoffState : BackoffState :=
  ⟨baseDelay⟩

/-- Modelled from the spec: the connection outcomes the backoff reacts
to: a failed reconnection attempt, or a successful transition to
`Open` (spec section 4.1). -/
inductive ConnEvent where
  | failure
  | opened
deriving DecidableEq, Repr

/-- Modelled from the spec: exponential backoff with a cap: a failure
doubles the delay up to `cap`; a successful `Open` resets it to the
base interval (spec section 4.1). -/
def backoffStep (cap : Nat) (st : BackoffState) (e : ConnEvent) : BackoffState :=
  match e with
  | .failure => ⟨min (st.delay * 2) cap⟩
  | .opened => ⟨baseDelay⟩

/-- Modelled from the spec: the backoff state after a sequence of
connection outcomes. -/
def runBackoff (cap : Nat) (events : List ConnEvent) (st : BackoffState) : BackoffState :=
  events.foldl (backoffStep cap) st

/-! ## WebSocketContext (src/frontend/src/contexts/WebSocketContext.tsx) -/

/-- The context value provided by `WebSocketProvider`: the `connected`
flag (the `sendMessage` member is the function embedded separately
below). -/
structure WebSocketContextType where
  connected : Bool
deriving DecidableEq, Repr

namespace WebSocketProvider

/-- The `connected` value of `WebSocketProvider`: the provider sets it
to the constant `false`. -/
def connected : Bool := false

/-- The observable effects of one `sendMessage` call: the console lines
it logs, the frames it writes to a transport, and the outbound messages
it buffers for later delivery. -/
structure SendEffects where
  consoleLogs : List String
  socketSends : List String
  buffered : List String
deriving DecidableEq, Repr

/-- `sendMessage` of `WebSocketProvider`: its body is a single
`console.log` call; it writes nothing to a transport and buffers
nothing, and returns synchronously. -/
def sendMessage (message : String) : SendEffects :=
  { consoleLogs := ["Sending message: " ++ message]
    socketSends := []
    buffered := [] }

end WebSocketProvider

/-- `useWebSocket`: reads the context; `undefined` (no surrounding
provider) throws, otherwise the context value is returned. -/
def useWebSocket (ctx : Option WebSocketContextType) :
    Except String WebSocketContextType :=
  match ctx with
  | none => .error "useWebSocket must be used within a WebSocketProvider"
  | some c => .ok c

/-! ## AuthContext (src/frontend/src/contexts/AuthContext.tsx) -/

/-- The `User` interface of AuthContext.tsx. -/
structure User where
  id : String
  email : String
  name : String
  avatarUrl : String
deriving DecidableEq, Repr

/-- The context value provided by `AuthProvider` (function members are
embedded separately below). -/
structure AuthContextType where
  user : Option User
  token : Option String
  isLoading : Bool
  isAuthenticated : Bool
deriving DecidableEq, Repr

/-- `useAuth`: reads the context; `undefined` (no surrounding provider)
throws, otherwise the context value is returned. -/
def useAuth (ctx : Option AuthContextType) : Except String AuthContextType :=
  match ctx with
  | none => .error "useAuth must be used within an AuthProvider"
  | some c => .ok c

/-- The state read and written by `AuthProvider`: the `user` and
`token` React state, and the `polylog_token` and `polylog_user`
localStorage keys. -/
structure AuthState where
  user : Option User
  token : Option String
  lsToken : Option String
  lsUser : Option String
deriving DecidableEq, Repr

/-- `isAuthenticated` as computed in the provider value:
`!!user && !!token`. -/
def isAuthenticated (user : Option User) (token : Option String) : Bool :=
  user.isSome && token.isSome

/-- `logout`: clears the `user` and `token` state and removes both
localStorage keys. -/
def logout (_st : AuthState) : AuthState :=
  { user := none, token := none, lsToken := none, lsUser := none }

/-- The outcome of the `fetch` to the refresh endpoint as `refreshToken`
observes it: a response with `response.ok` carrying `data.access_token`,
or a failure (network error or `!response.ok`). -/
inductive RefreshResponse where
  | ok (accessToken : String)
  | fail
deriving DecidableEq, Repr

/-- How a `refreshToken` call returns to its caller: normally, or by
throwing an error with the given message. -/
inductive RefreshOutcome where
  | success
  | thrown (msg : String)
deriving DecidableEq, Repr

/-- `refreshToken`: with no token in state it throws before the
try/catch (no cleanup); otherwise on a successful response it replaces
the token state and the `polylog_token` key, keeping the user data; on
failure the catch block calls `logout` and rethrows. -/
def refreshToken (resp : RefreshResponse) (st : AuthState) :
    RefreshOutcome × AuthState :=
  match st.token with
  | none => (.thrown "No token to refresh", st)
  | some _ =>
    match resp with
    | .ok newTok =>
        (.success, { st with token := some newTok, lsToken := some newTok })
    | .fail =>
        (.thrown "Token refresh failed", logout st)

/-- The outcome of `JSON.parse` on the stored `polylog_user` string:
either a parsed `User`, or a parse exception. -/
inductive StoredUser where
  | valid (u : User)
  | invalid
deriving DecidableEq, Repr

/-- The outcome of decoding the stored token
(`JSON.parse(atob(storedToken.split(".")[1]))`): a payload whose `exp`
claim coerces to the given number, a payload without a numeric `exp`
claim (reading it yields NaN, and a NaN comparison is false), or a
decode/parse exception. -/
inductive StoredToken where
  | valid (exp : Option Int)
  | invalid
deriving DecidableEq, Repr

/-- The localStorage contents the mount effect reads: the
`polylog_token` and `polylog_user` keys. -/
structure StoredAuth where
  polylogToken : Option StoredToken
  polylogUser : Option StoredUser
deriving DecidableEq, Repr

/-- The auth state after the provider mount effect ran: the restored
`user` and `token` state and the localStorage contents it left. -/
structure MountResult where
  user : Option User
  token : Option StoredToken
  stored : StoredAuth
deriving DecidableEq, Repr

/-- The `AuthProvider` mount effect: with both keys present it parses
the stored user, decodes the token payload and compares
`exp * 1000 - Date.now()` with zero: an expired token or a parse
exception removes both keys and restores nothing; otherwise the stored
credential is restored (a payload without a numeric `exp` claim makes
the comparison `NaN <= 0`, which is false, so the credential is
restored).  With a key missing, nothing is restored or removed. -/
def mountEffect (now : Int) (ls : StoredAuth) : MountResult :=
  match ls.polylogToken, ls.polylogUser with
  | some tok, some usr =>
    match usr, tok with
    | .valid u, .valid (some e) =>
        if e * 1000 - now ≤ 0 then
          { user := none, token := none, stored := ⟨none, none⟩ }
        else
          { user := some u, token := some tok, stored := ls }
    | .valid u, .valid none =>
        { user := some u, token := some tok, stored := ls }
    | _, _ =>
        { user := none, token := none, stored := ⟨none, none⟩ }
  | _, _ => { user := none, token := none, stored := ls }

/-- Whether a stored token has an `exp` claim lying strictly in the
future at time `now`. -/
def expStrictlyFuture (tok : StoredToken) (now : Int) : Bool :=
  match tok with
  | .valid (some e) => decide (now < e * 1000)
  | _ => false

/-! ## ChatPage (src/frontend/src/pages/ChatPage.tsx) -/

namespace ChatPage

/-- `handleSendMessage`: sends the input only when its trim is
non-empty and the socket is connected, then clears the input; returns
the message handed to `sendMessage` (if any) and the new input value. -/
def handleSendMessage (newMessage : String) (isConnected : Bool) :
    Option String × String :=
  if jsTrim newMessage ≠ "" ∧ isConnected then
    (some newMessage, "")
  else
    (none, newMessage)

end ChatPage

/-! ## Pipeline lemmas -/

/-- The assigned-sequence-number record is the range of numbers from 1
to the sequence counter. -/
def SeqInv (st : ConvState) : Prop :=
  st.assigned = List.range' 1 st.seqCounter

/-- Every message in the log carries a sequence number bounded by the
counter. -/
def LogBound (st : ConvState) : Prop :=
  ∀ m ∈ st.log, m.seq ≤ st.seqCounter

theorem runIngest_nil (cfg : Config) (st : ConvState) :
    runIngest cfg [] st = st := rfl

theorem runIngest_cons (cfg : Config) (i : IngestInput) (l : List IngestInput)
    (st : ConvState) :
    runIngest cfg (i :: l) st = runIngest cfg l (ingest cfg i st).2 := rfl

theorem runIngest_append (cfg : Config) (l₁ l₂ : List IngestInput) (st : ConvState) :
    runIngest cfg (l₁ ++ l₂) st = runIngest cfg l₂ (runIngest cfg l₁ st) :=
  List.foldl_append _ _ _ _

/-- One ingest step either leaves the assignment record and counter
unchanged, or assigns exactly the successor of the counter. -/
theorem ingest_assigned_step (cfg : Config) (inp : IngestInput) (st : ConvState) :
    ((ingest cfg inp st).2.assigned = st.assigned ∧
      (ingest cfg inp st).2.seqCounter = st.seqCounter) ∨
    ((ingest cfg inp st).2.assigned = st.assigned ++ [st.seqCounter + 1] ∧
      (ingest cfg inp st).2.seqCounter = st.seqCounter + 1) := by
  unfold ingest
  split
  · exact Or.inl ⟨rfl, rfl⟩
  · split
    · exact Or.inl ⟨rfl, rfl⟩
    · split
      · exact Or.inr ⟨rfl, rfl⟩
      · exact Or.inr ⟨rfl, rfl⟩

/-- One ingest step only appends to the log. -/
theorem ingest_log_step (cfg : Config) (inp : IngestInput) (st : ConvState) :
    ∃ tail, (ingest cfg inp st).2.log = st.log ++ tail := by
  unfold ingest
  split
  · exact ⟨[], (List.append_nil _).symm⟩
  · split
    · exact ⟨[], (List.append_nil _).symm⟩
    · split
      · exact ⟨_, rfl⟩
      · exact ⟨[], (List.append_nil _).symm⟩

theorem ingest_seqInv_step (cfg : Config) (inp : IngestInput) (st : ConvState)
    (h : SeqInv st) : SeqInv (ingest cfg inp st).2 := by
  unfold SeqInv at h ⊢
  rcases ingest_assigned_step cfg inp st with ⟨ha, hc⟩ | ⟨ha, hc⟩ <;> rw [ha, hc, h]
  rw [List.range'_concat]
  simp [Nat.add_comm]

theorem ingest_counter_mono (cfg : Config) (inp : IngestInput) (st : ConvState) :
    st.seqCounter ≤ (ingest cfg inp st).2.seqCounter := by
  rcases ingest_assigned_step cfg inp st with ⟨_, hc⟩ | ⟨_, hc⟩ <;> omega

theorem ingest_logBound_step (cfg : Config) (inp : IngestInput) (st : ConvState)
    (h : LogBound st) : LogBound (ingest cfg inp st).2 := by
  unfold LogBound at h ⊢
  unfold ingest
  split
  · exact h
  · split
    · exact h
    · split
      · intro m hm
        simp only [List.mem_append, List.mem_singleton] at hm
        rcases hm with hm | hm
        · exact Nat.le_succ_of_le (h m hm)
        · subst hm; exact Nat.le_refl _
      · intro m hm
        exact Nat.le_succ_of_le (h m hm)

theorem runIngest_seqInv (cfg : Config) (l : List IngestInput) (st : ConvState)
    (h : SeqInv st) : SeqInv (runIngest cfg l st) := by
  induction l generalizing st with
  | nil => exact h
  | cons i l ih => exact ih _ (ingest_seqInv_step cfg i st h)

theorem runIngest_counter_mono (cfg : Config) (l : List IngestInput) (st : ConvState) :
    st.seqCounter ≤ (runIngest cfg l st).seqCounter := by
  induction l generalizing st with
  | nil => exact Nat.le_refl _
  | cons i l ih =>
      exact Nat.le_trans (ingest_counter_mono cfg i st) (ih (ingest cfg i st).2)

theorem runIngest_logBound (cfg : Config) (l : List IngestInput) (st : ConvState)
    (h : LogBound st) : LogBound (runIngest cfg l st) := by
  induction l generalizing st with
  | nil => exact h
  | cons i l ih => exact ih _ (ingest_logBound_step cfg i st h)

theorem runIngest_log_append (cfg : Config) (l : List IngestInput) (st : ConvState) :
    ∃ tail, (runIngest cfg l st).log = st.log ++ tail := by
  induction l generalizing st with
  | nil => exact ⟨[], (List.append_nil _).symm⟩
  | cons i l ih =>
      obtain ⟨t₁, h₁⟩ := ingest_log_step cfg i st
      obtain ⟨t₂, h₂⟩ := ih (ingest cfg i st).2
      exact ⟨t₁ ++ t₂, by rw [runIngest_cons, h₂, h₁, List.append_assoc]⟩

theorem seqInv_initial : SeqInv initialConvState := rfl

theorem logBound_initial : LogBound initialConvState := by
  intro m hm
  simp [initialConvState] at hm

/-- A successful ingest returns the message with the freshly assigned
sequence number. -/
theorem ingest_ok_seq (cfg : Config) (inp : IngestInput) (st : ConvState)
    (m : Message) (h : (ingest cfg inp st).1 = .ok m) :
    m.seq = st.seqCounter + 1 := by
  unfold ingest at h
  split at h
  · simp at h
  · split at h
    · simp at h
    · split at h
      · simp only [Prod.fst] at h
        cases h
        rfl
      · simp at h

/-- A successful ingest appends exactly the returned message to the
log and to the fanout record, and records the idempotency token. -/
theorem ingest_ok_state (cfg : Config) (inp : IngestInput) (st : ConvState)
    (m : Message) (h : (ingest cfg inp st).1 = .ok m) :
    (ingest cfg inp st).2.log = st.log ++ [m] ∧
    (ingest cfg inp st).2.broadcasts = st.broadcasts ++ [m] ∧
    (ingest cfg inp st).2.dedupeSeen = recordToken inp.token inp.now st.dedupeSeen ∧
    (ingest cfg inp st).2.seqCounter = st.seqCounter + 1 := by
  unfold ingest at h ⊢
  cases hv : validateContent cfg inp st with
  | some r => rw [hv] at h; simp at h
  | none =>
    rw [hv] at h
    by_cases hd : isDuplicate cfg inp st = true
    · simp [hd] at h
    · simp only [hd, if_false, Bool.false_eq_true] at h ⊢
      by_cases hs : inp.storeOk = true
      · simp only [hs, if_true] at h ⊢
        cases h
        simp
      · simp [hs] at h

/-- A call whose token was recorded within the dedupe window is
detected as a duplicate. -/
theorem isDuplicate_of_seen (cfg : Config) (inp : IngestInput) (st : ConvState)
    (t : String) (t₁ : Nat) (htok : inp.token = some t)
    (hmem : (t, t₁) ∈ st.dedupeSeen) (hwin : inp.now - t₁ ≤ cfg.dedupeWindow) :
    isDuplicate cfg inp st = true := by
  unfold isDuplicate
  rw [htok, List.any_eq_true]
  exact ⟨(t, t₁), hmem, by simp [hwin]⟩

/-! ## Engine and backoff lemmas -/

/-- At most one generation in flight, and the phase is `Invoking`
exactly when one is. -/
def EngineInv (st : TriggerState) : Prop :=
  st.inflight ≤ 1 ∧ (st.phase = .invoking ↔ st.inflight = 1)

theorem engineStep_inv (st : TriggerState) (e : EngineEvent) (h : EngineInv st) :
    EngineInv (engineStep st e) := by
  obtain ⟨h1, h2⟩ := h
  cases e <;> cases hp : st.phase <;> simp_all [engineStep, EngineInv]
  all_goals omega

theorem runEngine_inv (events : List EngineEvent) (st : TriggerState)
    (h : EngineInv st) : EngineInv (runEngine events st) := by
  induction events generalizing st with
  | nil => exact h
  | cons e l ih => exact ih _ (engineStep_inv st e h)

theorem engineInv_initial : EngineInv initialTriggerState := by
  constructor
  · exact Nat.zero_le 1
  · simp [initialTriggerState]

/-- The backoff delay stays between the base interval and the cap. -/
def BackoffInv (cap : Nat) (st : BackoffState) : Prop :=
  baseDelay ≤ st.delay ∧ st.delay ≤ cap

theorem backoffStep_inv (cap : Nat) (st : BackoffState) (e : ConnEvent)
    (hcap : baseDelay ≤ cap) (h : BackoffInv cap st) :
    BackoffInv cap (backoffStep cap st e) := by
  obtain ⟨h1, h2⟩ := h
  cases e with
  | failure =>
      exact ⟨le_min (by omega) hcap, min_le_right _ _⟩
  | opened =>
      exact ⟨Nat.le_refl _, hcap⟩

theorem runBackoff_inv (cap : Nat) (events : List ConnEvent) (st : BackoffState)
    (hcap : baseDelay ≤ cap) (h : BackoffInv cap st) :
    BackoffInv cap (runBackoff cap events st) := by
  induction events generalizing st with
  | nil => exact h
  | cons e l ih => exact ih _ (backoffStep_inv cap st e hcap h)

theorem backoffInv_initial (cap : Nat) (hcap : baseDelay ≤ cap) :
    BackoffInv cap initialBackoffState :=
  ⟨Nat.le_refl _, hcap⟩

theorem backoffStep_failure_mono (cap : Nat) (st : BackoffState)
    (h : BackoffInv cap st) :
    st.delay ≤ (backoffStep cap st .failure).delay :=
  le_min (by omega) h.2

theorem runBackoff_append (cap : Nat) (l₁ l₂ : List ConnEvent) (st : BackoffState) :
    runBackoff cap (l₁ ++ l₂) st = runBackoff cap l₂ (runBackoff cap l₁ st) :=
  List.foldl_append _ _ _ _

/-- A call that fails validation is answered with the reason and
leaves the state untouched. -/
theorem ingest_rejected_eq (cfg : Config) (inp : IngestInput) (st : ConvState)
    (r : RejectedReason) (hv : validateContent cfg inp st = some r) :
    ingest cfg inp st = (.rejected r, st) := by
  unfold ingest
  rw [hv]

/-- A call caught by the dedupe check is answered `DuplicateIgnored`
and leaves the state untouched. -/
theorem ingest_dup_eq (cfg : Config) (inp : IngestInput) (st : ConvState)
    (hv : validateContent cfg inp st = none) (hd : isDuplicate cfg inp st = true) :
    ingest cfg inp st = (.duplicateIgnored, st) := by
  unfold ingest
  rw [hv]
  simp [hd]

/-- The ingest outcome of a sequenced call whose store fails. -/
theorem ingest_fail_state (cfg : Config) (inp : IngestInput) (st : ConvState)
    (hv : validateContent cfg inp st = none) (hd : isDuplicate cfg inp st = false)
    (hs : inp.storeOk = false) :
    (ingest cfg inp st).1 = .persistenceFailure ∧
    (ingest cfg inp st).2.seqCounter = st.seqCounter + 1 ∧
    (ingest cfg inp st).2.log = st.log := by
  unfold ingest
  rw [hv]
  simp [hd, hs]

/-! ## Claim theorems -/

/-- Sample data used by concrete witnesses and counterexamples. -/
def u0 : User :=
  ⟨"u0", "alice@example.com", "Alice", "http://avatar/0"⟩

/-- C1: For every conversation, the sequence numbers assigned to
messages by `ingest` are strictly increasing, gapless (they are exactly
the range 1..counter), and never repeat, and once assigned, a message
with its sequence number and content stays in the log unchanged: the
log after any further calls extends the earlier log. -/
theorem ingest_sequence_invariant (cfg : Config) (pre post : List IngestInput) :
    (runIngest cfg (pre ++ post) initialConvState).assigned
        = List.range' 1 (runIngest cfg (pre ++ post) initialConvState).seqCounter
    ∧ List.Pairwise (· < ·) (runIngest cfg (pre ++ post) initialConvState).assigned
    ∧ (runIngest cfg (pre ++ post) initialConvState).assigned.Nodup
    ∧ ∃ tail, (runIngest cfg (pre ++ post) initialConvState).log
        = (runIngest cfg pre initialConvState).log ++ tail := by
  have hinv := runIngest_seqInv cfg (pre ++ post) initialConvState seqInv_initial
  refine ⟨hinv, ?_, ?_, ?_⟩
  · rw [hinv]; exact List.pairwise_lt_range' 1 _
  · rw [hinv]; exact List.nodup_range' 1 _
  · rw [runIngest_append]; exact runIngest_log_append cfg post _

theorem ingest_sequence_invariant_witness :
    (runIngest ⟨100, 10, 10⟩
        ([] ++ [⟨.human "alice", "hello", some "t1", 0, true⟩]) initialConvState).assigned
        = List.range' 1 (runIngest ⟨100, 10, 10⟩
            ([] ++ [⟨.human "alice", "hello", some "t1", 0, true⟩]) initialConvState).seqCounter
    ∧ List.Pairwise (· < ·) (runIngest ⟨100, 10, 10⟩
        ([] ++ [⟨.human "alice", "hello", some "t1", 0, true⟩]) initialConvState).assigned
    ∧ (runIngest ⟨100, 10, 10⟩
        ([] ++ [⟨.human "alice", "hello", some "t1", 0, true⟩]) initialConvState).assigned.Nodup
    ∧ ∃ tail, (runIngest ⟨100, 10, 10⟩
        ([] ++ [⟨.human "alice", "hello", some "t1", 0, true⟩]) initialConvState).log
        = (runIngest ⟨100, 10, 10⟩ [] initialConvState).log ++ tail :=
  ingest_sequence_invariant ⟨100, 10, 10⟩ [] [⟨.human "alice", "hello", some "t1", 0, true⟩]

/-- C2 (amended): a second `ingest` call on the same conversation with
the same idempotency token within the dedupe window leaves the stored
log, the fanout record, the counter and all other state unchanged —
exactly one message is persisted and broadcast — and it returns
`DuplicateIgnored` provided it passes validation (a second call that
fails validation, e.g. rate-limited, returns that `RejectedReason`
instead, still without persisting or broadcasting). -/
theorem ingest_duplicate_window (cfg : Config) (inp1 inp2 : IngestInput)
    (st : ConvState) (t : String) (m : Message)
    (h1 : inp1.token = some t) (h2 : inp2.token = some t)
    (hwin : inp2.now - inp1.now ≤ cfg.dedupeWindow)
    (hok : (ingest cfg inp1 st).1 = .ok m) :
    (ingest cfg inp1 st).2.log = st.log ++ [m]
    ∧ (ingest cfg inp1 st).2.broadcasts = st.broadcasts ++ [m]
    ∧ (ingest cfg inp2 (ingest cfg inp1 st).2).2 = (ingest cfg inp1 st).2
    ∧ (validateContent cfg inp2 (ingest cfg inp1 st).2 = none →
        (ingest cfg inp2 (ingest cfg inp1 st).2).1 = .duplicateIgnored) := by
  obtain ⟨hlog, hbc, hseen, _⟩ := ingest_ok_state cfg inp1 st m hok
  have hdup : isDuplicate cfg inp2 (ingest cfg inp1 st).2 = true := by
    apply isDuplicate_of_seen cfg inp2 _ t inp1.now h2 _ hwin
    rw [hseen]
    unfold recordToken
    rw [h1]
    exact List.mem_append_right _ (List.mem_singleton_self _)
  refine ⟨hlog, hbc, ?_, ?_⟩
  · cases hv : validateContent cfg inp2 (ingest cfg inp1 st).2 with
    | some r => rw [ingest_rejected_eq cfg inp2 _ r hv]
    | none => rw [ingest_dup_eq cfg inp2 _ hv hdup]
  · intro hv
    rw [ingest_dup_eq cfg inp2 _ hv hdup]

theorem ingest_duplicate_window_witness :
    ((⟨.human "alice", "hello", some "t1", 0, true⟩ : IngestInput).token = some "t1")
    ∧ ((⟨.human "alice", "hello", some "t1", 1, true⟩ : IngestInput).token = some "t1")
    ∧ ((⟨.human "alice", "hello", some "t1", 1, true⟩ : IngestInput).now
        - (⟨.human "alice", "hello", some "t1", 0, true⟩ : IngestInput).now
        ≤ (⟨100, 10, 10⟩ : Config).dedupeWindow)
    ∧ ((ingest ⟨100, 10, 10⟩ ⟨.human "alice", "hello", some "t1", 0, true⟩
          initialConvState).1 = .ok ⟨1, .human "alice", "hello", 0⟩)
    ∧ ((ingest ⟨100, 10, 10⟩ ⟨.human "alice", "hello", some "t1", 0, true⟩
          initialConvState).2.log
        = initialConvState.log ++ [⟨1, .human "alice", "hello", 0⟩]
      ∧ (ingest ⟨100, 10, 10⟩ ⟨.human "alice", "hello", some "t1", 0, true⟩
          initialConvState).2.broadcasts
        = initialConvState.broadcasts ++ [⟨1, .human "alice", "hello", 0⟩]
      ∧ (ingest ⟨100, 10, 10⟩ ⟨.human "alice", "hello", some "t1", 1, true⟩
          (ingest ⟨100, 10, 10⟩ ⟨.human "alice", "hello", some "t1", 0, true⟩
            initialConvState).2).2
        = (ingest ⟨100, 10, 10⟩ ⟨.human "alice", "hello", some "t1", 0, true⟩
            initialConvState).2
      ∧ (validateContent ⟨100, 10, 10⟩ ⟨.human "alice", "hello", some "t1", 1, true⟩
          (ingest ⟨100, 10, 10⟩ ⟨.human "alice", "hello", some "t1", 0, true⟩
            initialConvState).2 = none →
          (ingest ⟨100, 10, 10⟩ ⟨.human "alice", "hello", some "t1", 1, true⟩
            (ingest ⟨100, 10, 10⟩ ⟨.human "alice", "hello", some "t1", 0, true⟩
              initialConvState).2).1 = .duplicateIgnored)) :=
  ⟨rfl, rfl, by decide, by decide,
    ingest_duplicate_window ⟨100, 10, 10⟩
      ⟨.human "alice", "hello", some "t1", 0, true⟩
      ⟨.human "alice", "hello", some "t1", 1, true⟩
      initialConvState "t1" ⟨1, .human "alice", "hello", 0⟩
      rfl rfl (by decide) (by decide)⟩

/-- C2 counterexample: with `rateLimitPerUserPerMinute = 1`, a resend
of "hello" with the same token `t1` within the dedupe window is caught
by validation (spec section 4.3 step 1) before the dedupe check
(step 2) and returns `RejectedReason.rateLimited`, not
`DuplicateIgnored`, refuting the unqualified claim. -/
theorem ingest_duplicate_window_cex :
    (ingest ⟨100, 10, 1⟩ ⟨.human "alice", "hello", some "t1", 0, true⟩
        initialConvState).1 = .ok ⟨1, .human "alice", "hello", 0⟩
    ∧ (ingest ⟨100, 10, 1⟩ ⟨.human "alice", "hello", some "t1", 1, true⟩
        (ingest ⟨100, 10, 1⟩ ⟨.human "alice", "hello", some "t1", 0, true⟩
          initialConvState).2).1 = .rejected .rateLimited
    ∧ ¬ (ingest ⟨100, 10, 1⟩ ⟨.human "alice", "hello", some "t1", 1, true⟩
        (ingest ⟨100, 10, 1⟩ ⟨.human "alice", "hello", some "t1", 0, true⟩
          initialConvState).2).1 = .duplicateIgnored := by
  refine ⟨by decide, by decide, by decide⟩

/-- C3: for every reachable state of the Assistant Trigger Engine the
number of in-flight generations is at most one (and the phase is
`Invoking` exactly when one is in flight), and a trigger that fires
while the engine is `Invoking` only bumps the dropped counter: the
phase, the in-flight count and the rest of the state are unchanged and
nothing is queued. -/
theorem at_most_one_invoking (events : List EngineEvent) (e : EngineEvent) :
    (runEngine events initialTriggerState).inflight ≤ 1
    ∧ ((runEngine events initialTriggerState).phase = .invoking ↔
        (runEngine events initialTriggerState).inflight = 1)
    ∧ (isTrigger e = true → (runEngine events initialTriggerState).phase = .invoking →
        engineStep (runEngine events initialTriggerState) e
          = { runEngine events initialTriggerState with
              dropped := (runEngine events initialTriggerState).dropped + 1 }) := by
  have hinv := runEngine_inv events initialTriggerState engineInv_initial
  refine ⟨hinv.1, hinv.2, ?_⟩
  intro ht hp
  cases e <;> simp [isTrigger] at ht <;> simp [engineStep, hp]

theorem at_most_one_invoking_witness :
    (runEngine [.mention] initialTriggerState).inflight ≤ 1
    ∧ ((runEngine [.mention] initialTriggerState).phase = .invoking ↔
        (runEngine [.mention] initialTriggerState).inflight = 1)
    ∧ (isTrigger .lullFire = true →
        (runEngine [.mention] initialTriggerState).phase = .invoking →
        engineStep (runEngine [.mention] initialTriggerState) .lullFire
          = { runEngine [.mention] initialTriggerState with
              dropped := (runEngine [.mention] initialTriggerState).dropped + 1 }) :=
  at_most_one_invoking [.mention] .lullFire

/-- C4: `sendMessage` of the WebSocket provider, called while the
connection is not `Open` (the provider's `connected` is constantly
`false`, so the connection is never `Open`), returns synchronously
having only logged to the console: it writes nothing to a transport
and buffers no outbound message for later delivery. -/
theorem sendMessage_no_buffering (m : String) :
    WebSocketProvider.connected = false
    ∧ (WebSocketProvider.sendMessage m).buffered = []
    ∧ (WebSocketProvider.sendMessage m).socketSends = []
    ∧ (WebSocketProvider.sendMessage m).consoleLogs = ["Sending message: " ++ m] :=
  ⟨rfl, rfl, rfl, rfl⟩

theorem sendMessage_no_buffering_witness :
    WebSocketProvider.connected = false
    ∧ (WebSocketProvider.sendMessage "hi").buffered = []
    ∧ (WebSocketProvider.sendMessage "hi").socketSends = []
    ∧ (WebSocketProvider.sendMessage "hi").consoleLogs = ["Sending message: " ++ "hi"] :=
  sendMessage_no_buffering "hi"

/-- C5: across any run of consecutive failed reconnection attempts the
backoff delay is monotonically non-decreasing and never exceeds the
cap, and a successful transition to `Open` resets it to the base
interval. -/
theorem reconnect_backoff_behavior (cap : Nat) (hcap : baseDelay ≤ cap)
    (events : List ConnEvent) (n : Nat) :
    (runBackoff cap (events ++ List.replicate n .failure) initialBackoffState).delay
      ≤ (runBackoff cap (events ++ List.replicate (n + 1) .failure) initialBackoffState).delay
    ∧ (runBackoff cap (events ++ List.replicate n .failure) initialBackoffState).delay ≤ cap
    ∧ (runBackoff cap (events ++ [ConnEvent.opened]) initialBackoffState).delay = baseDelay := by
  have hinv := runBackoff_inv cap (events ++ List.replicate n .failure)
    initialBackoffState hcap (backoffInv_initial cap hcap)
  refine ⟨?_, hinv.2, ?_⟩
  · have hsplit : events ++ List.replicate (n + 1) ConnEvent.failure
        = (events ++ List.replicate n ConnEvent.failure) ++ [ConnEvent.failure] := by
      rw [List.replicate_succ', ← List.append_assoc]
    rw [hsplit, runBackoff_append cap (events ++ List.replicate n ConnEvent.failure)
      [ConnEvent.failure] initialBackoffState]
    exact backoffStep_failure_mono cap _ hinv
  · rw [runBackoff_append]
    rfl

theorem reconnect_backoff_behavior_witness :
    baseDelay ≤ 30000
    ∧ ((runBackoff 30000 ([] ++ List.replicate 0 .failure) initialBackoffState).delay
        ≤ (runBackoff 30000 ([] ++ List.replicate 1 .failure) initialBackoffState).delay
      ∧ (runBackoff 30000 ([] ++ List.replicate 0 .failure) initialBackoffState).delay ≤ 30000
      ∧ (runBackoff 30000 ([] ++ [ConnEvent.opened]) initialBackoffState).delay = baseDelay) :=
  ⟨by decide, reconnect_backoff_behavior 30000 (by decide) [] 0⟩

/-- C6: an `ingest` call whose content is empty after trimming is
rejected with a `RejectedReason` and the state — log, fanout record,
counter — is untouched, so nothing is persisted or broadcast; and at
the client boundary `handleSendMessage` hands nothing to `sendMessage`
for input whose trim is empty. -/
theorem empty_content_rejected (cfg : Config) (inp : IngestInput) (st : ConvState)
    (conn : Bool) (hemp : jsTrim inp.content = "") :
    ingest cfg inp st = (.rejected .validationError, st)
    ∧ (ChatPage.handleSendMessage inp.content conn).1 = none := by
  have hv : validateContent cfg inp st = some .validationError := by
    unfold validateContent
    rw [hemp]
    simp
  refine ⟨ingest_rejected_eq cfg inp st _ hv, ?_⟩
  unfold ChatPage.handleSendMessage
  simp [hemp]

theorem empty_content_rejected_witness :
    jsTrim (⟨.human "alice", " ", none, 0, true⟩ : IngestInput).content = ""
    ∧ (ingest ⟨100, 10, 10⟩ ⟨.human "alice", " ", none, 0, true⟩ initialConvState
        = (.rejected .validationError, initialConvState)
      ∧ (ChatPage.handleSendMessage
          (⟨.human "alice", " ", none, 0, true⟩ : IngestInput).content true).1 = none) :=
  ⟨by decide,
    empty_content_rejected ⟨100, 10, 10⟩ ⟨.human "alice", " ", none, 0, true⟩
      initialConvState true (by decide)⟩

/-- C7: when the store fails after a sequence number has been assigned,
the caller receives the explicit `persistenceFailure` answer (never a
successful acknowledgement), the failed sequence number appears in no
persisted message, and every later successfully ingested message
carries a strictly larger sequence number. -/
theorem store_failure_not_silent (cfg : Config) (pre later : List IngestInput)
    (inp inp2 : IngestInput) (m2 : Message)
    (hv : validateContent cfg inp (runIngest cfg pre initialConvState) = none)
    (hd : isDuplicate cfg inp (runIngest cfg pre initialConvState) = false)
    (hs : inp.storeOk = false) :
    (ingest cfg inp (runIngest cfg pre initialConvState)).1 = .persistenceFailure
    ∧ (∀ mm ∈ (ingest cfg inp (runIngest cfg pre initialConvState)).2.log,
        mm.seq ≠ (runIngest cfg pre initialConvState).seqCounter + 1)
    ∧ ((ingest cfg inp2 (runIngest cfg later
          (ingest cfg inp (runIngest cfg pre initialConvState)).2)).1 = .ok m2 →
        (runIngest cfg pre initialConvState).seqCounter + 1 < m2.seq) := by
  obtain ⟨hres, hcnt, hlog⟩ := ingest_fail_state cfg inp _ hv hd hs
  have hbound : LogBound (runIngest cfg pre initialConvState) :=
    runIngest_logBound cfg pre initialConvState logBound_initial
  refine ⟨hres, ?_, ?_⟩
  · intro mm hmm
    rw [hlog] at hmm
    have := hbound mm hmm
    omega
  · intro hok2
    have hseq2 := ingest_ok_seq cfg inp2 _ m2 hok2
    have hmono := runIngest_counter_mono cfg later
      (ingest cfg inp (runIngest cfg pre initialConvState)).2
    omega

theorem store_failure_not_silent_witness :
    validateContent ⟨100, 10, 10⟩ ⟨.human "alice", "hi", none, 0, false⟩
        (runIngest ⟨100, 10, 10⟩ [] initialConvState) = none
    ∧ isDuplicate ⟨100, 10, 10⟩ ⟨.human "alice", "hi", none, 0, false⟩
        (runIngest ⟨100, 10, 10⟩ [] initialConvState) = false
    ∧ ((ingest ⟨100, 10, 10⟩ ⟨.human "alice", "hi", none, 0, false⟩
          (runIngest ⟨100, 10, 10⟩ [] initialConvState)).1 = .persistenceFailure
      ∧ (∀ mm ∈ (ingest ⟨100, 10, 10⟩ ⟨.human "alice", "hi", none, 0, false⟩
            (runIngest ⟨100, 10, 10⟩ [] initialConvState)).2.log,
          mm.seq ≠ (runIngest ⟨100, 10, 10⟩ [] initialConvState).seqCounter + 1)
      ∧ ((ingest ⟨100, 10, 10⟩ ⟨.human "bob", "yo", none, 1, true⟩
            (runIngest ⟨100, 10, 10⟩ []
              (ingest ⟨100, 10, 10⟩ ⟨.human "alice", "hi", none, 0, false⟩
                (runIngest ⟨100, 10, 10⟩ [] initialConvState)).2)).1
            = .ok ⟨2, .human "bob", "yo", 1⟩ →
          (runIngest ⟨100, 10, 10⟩ [] initialConvState).seqCounter + 1
            < (⟨2, .human "bob", "yo", 1⟩ : Message).seq)) :=
  ⟨by decide, by decide,
    store_failure_not_silent ⟨100, 10, 10⟩ [] []
      ⟨.human "alice", "hi", none, 0, false⟩ ⟨.human "bob", "yo", none, 1, true⟩
      ⟨2, .human "bob", "yo", 1⟩ (by decide) (by decide) rfl⟩

/-- C8: the hooks `useWebSocket` and `useAuth` throw when called
outside their provider (the context reads `undefined`), and return the
defined context value when the provider is present. -/
theorem hooks_require_provider (c : WebSocketContextType) (a : AuthContextType) :
    useWebSocket none = .error "useWebSocket must be used within a WebSocketProvider"
    ∧ useAuth none = .error "useAuth must be used within an AuthProvider"
    ∧ useWebSocket (some c) = .ok c
    ∧ useAuth (some a) = .ok a :=
  ⟨rfl, rfl, rfl, rfl⟩

theorem hooks_require_provider_witness :
    useWebSocket none = .error "useWebSocket must be used within a WebSocketProvider"
    ∧ useAuth none = .error "useAuth must be used within an AuthProvider"
    ∧ useWebSocket (some ⟨false⟩) = .ok ⟨false⟩
    ∧ useAuth (some ⟨none, none, true, false⟩) = .ok ⟨none, none, true, false⟩ :=
  hooks_require_provider ⟨false⟩ ⟨none, none, true, false⟩

/-- C9 (amended): a successful `refreshToken` call made with a token
present replaces only the token state and the `polylog_token` key,
leaving the user state and the `polylog_user` key unchanged; a
`refreshToken` call made with a token present that fails clears the
whole session (state and both keys) and rethrows; a call made with no
token fails by throwing before any cleanup. -/
theorem refreshToken_frame (st : AuthState) (tok newTok : String)
    (htok : st.token = some tok) :
    refreshToken (.ok newTok) st
      = (.success, { st with token := some newTok, lsToken := some newTok })
    ∧ (refreshToken (.ok newTok) st).2.user = st.user
    ∧ (refreshToken (.ok newTok) st).2.lsUser = st.lsUser
    ∧ refreshToken .fail st
      = (.thrown "Token refresh failed", (⟨none, none, none, none⟩ : AuthState)) := by
  refine ⟨?_, ?_, ?_, ?_⟩ <;> simp [refreshToken, htok, logout]

theorem refreshToken_frame_witness :
    (⟨some u0, some "oldT", some "oldT", some "uj"⟩ : AuthState).token = some "oldT"
    ∧ (refreshToken (.ok "newT") ⟨some u0, some "oldT", some "oldT", some "uj"⟩
        = (.success, ⟨some u0, some "newT", some "newT", some "uj"⟩)
      ∧ (refreshToken (.ok "newT")
          ⟨some u0, some "oldT", some "oldT", some "uj"⟩).2.user
        = (⟨some u0, some "oldT", some "oldT", some "uj"⟩ : AuthState).user
      ∧ (refreshToken (.ok "newT")
          ⟨some u0, some "oldT", some "oldT", some "uj"⟩).2.lsUser
        = (⟨some u0, some "oldT", some "oldT", some "uj"⟩ : AuthState).lsUser
      ∧ refreshToken .fail ⟨some u0, some "oldT", some "oldT", some "uj"⟩
        = (.thrown "Token refresh failed", (⟨none, none, none, none⟩ : AuthState))) :=
  ⟨rfl, refreshToken_frame ⟨some u0, some "oldT", some "oldT", some "uj"⟩
    "oldT" "newT" rfl⟩

/-- C9 counterexample: a `refreshToken` call made while the token state
is null fails (it throws "No token to refresh") yet clears nothing: the
user state and the `polylog_user` key survive, refuting the claim that
every failed call fully logs the session out. -/
theorem refreshToken_no_token_cex :
    refreshToken .fail ⟨some u0, none, none, some "stored-user-json"⟩
      = (.thrown "No token to refresh",
          (⟨some u0, none, none, some "stored-user-json"⟩ : AuthState))
    ∧ (⟨some u0, none, none, some "stored-user-json"⟩ : AuthState).user = some u0
    ∧ (⟨some u0, none, none, some "stored-user-json"⟩ : AuthState).lsUser
        = some "stored-user-json" :=
  ⟨rfl, rfl, rfl⟩

/-- C10 (amended): the mount effect restores a stored credential only
when both keys are present, the user JSON parses, the token payload
decodes, and any numeric `exp` claim satisfies `exp * 1000 > now`; a
decodable payload without a numeric `exp` claim is restored regardless
(the JS comparison `NaN <= 0` is false).  An expired or undecodable
credential is removed from both localStorage keys and nothing is
restored; with a key missing nothing is restored or removed; and
`isAuthenticated` holds exactly when both user and token are
non-null. -/
theorem mount_effect_characterization (now : Int) (ls : StoredAuth)
    (uu : Option User) (tt : Option String) :
    (∀ u e, ls.polylogUser = some (.valid u) →
        ls.polylogToken = some (.valid (some e)) → e * 1000 - now ≤ 0 →
        mountEffect now ls = ⟨none, none, ⟨none, none⟩⟩)
    ∧ (∀ u e, ls.polylogUser = some (.valid u) →
        ls.polylogToken = some (.valid (some e)) → now < e * 1000 →
        mountEffect now ls = ⟨some u, some (.valid (some e)), ls⟩)
    ∧ (∀ u, ls.polylogUser = some (.valid u) → ls.polylogToken = some (.valid none) →
        mountEffect now ls = ⟨some u, some (.valid none), ls⟩)
    ∧ (∀ tok, ls.polylogUser = some .invalid → ls.polylogToken = some tok →
        mountEffect now ls = ⟨none, none, ⟨none, none⟩⟩)
    ∧ (∀ usr, ls.polylogUser = some usr → ls.polylogToken = some .invalid →
        mountEffect now ls = ⟨none, none, ⟨none, none⟩⟩)
    ∧ ((ls.polylogToken = none ∨ ls.polylogUser = none) →
        mountEffect now ls = ⟨none, none, ls⟩)
    ∧ ((mountEffect now ls).user ≠ none →
        ∃ u tok, ls.polylogUser = some (.valid u) ∧ ls.polylogToken = some tok ∧
          tok ≠ .invalid ∧ (∀ e, tok = .valid (some e) → now < e * 1000))
    ∧ (isAuthenticated uu tt = true ↔ uu ≠ none ∧ tt ≠ none) := by
  obtain ⟨tokOpt, usrOpt⟩ := ls
  refine ⟨?_, ?_, ?_, ?_, ?_, ?_, ?_, ?_⟩
  · intro u e hu ht hle
    simp only at hu ht
    subst hu; subst ht
    simp [mountEffect, hle]
  · intro u e hu ht hlt
    simp only at hu ht
    subst hu; subst ht
    simp [mountEffect]
    omega
  · intro u hu ht
    simp only at hu ht
    subst hu; subst ht
    simp [mountEffect]
  · intro tok hu ht
    simp only at hu ht
    subst hu; subst ht
    cases tok with
    | valid eo => cases eo <;> simp [mountEffect]
    | invalid => simp [mountEffect]
  · intro usr hu ht
    simp only at hu ht
    subst hu; subst ht
    cases usr <;> simp [mountEffect]
  · intro h
    rcases h with h | h <;> simp only at h <;> subst h
    · cases usrOpt <;> simp [mountEffect]
    · cases tokOpt <;> simp [mountEffect]
  · intro hne
    rcases tokOpt with _ | tok
    · simp [mountEffect] at hne
    rcases usrOpt with _ | usr
    · simp [mountEffect] at hne
    rcases usr with u | _
    · rcases tok with eo | _
      · rcases eo with _ | e
        · exact ⟨u, .valid none, rfl, rfl, by simp, by intro e he; cases he⟩
        · by_cases hle : e * 1000 - now ≤ 0
          · simp [mountEffect, hle] at hne
          · refine ⟨u, .valid (some e), rfl, rfl, by simp, ?_⟩
            intro e2 he2
            cases he2
            omega
      · simp [mountEffect] at hne
    · simp [mountEffect] at hne
  · cases uu <;> cases tt <;> simp [isAuthenticated]

/-- C10 counterexample: a stored credential whose token payload decodes
but carries no numeric `exp` claim is restored by the mount effect
(`NaN <= 0` is false in JS), although its `exp` claim is not strictly
in the future — refuting the claim that restoration happens only when
the `exp` claim is strictly in the future. -/
theorem mount_restores_missing_exp_cex :
    (mountEffect 1700000000000
        ⟨some (.valid none), some (.valid u0)⟩).user = some u0
    ∧ (mountEffect 1700000000000
        ⟨some (.valid none), some (.valid u0)⟩).token = some (.valid none)
    ∧ expStrictlyFuture (.valid none) 1700000000000 = false :=
  ⟨rfl, rfl, rfl⟩

end Polylog
